import Mathlib

/-!
Shallow embedding of the evaluation engine of the `llm-tool-test` repository:
the JSON-path mini-language and assertion evaluator, the gate evaluator, the
transcript analyzer, the composite scorer and the cache key
(`src/evaluation.rs`, `src/eval_helpers.rs`, `src/transcript/analyzer.rs`,
`src/results/types/cache_key.rs`).

Modelling conventions:
* Rust `f64` values are modelled as rationals (`ℚ`); the code only forms
  ratios of small machine integers, fixed decimal weights, sums, products
  and clamps, so the arithmetic structure is preserved exactly.
* External collaborators (the OS shell, the file system, the `regex` crate,
  `serde_json`, `sha2`) are modelled as explicit function parameters, so
  every evaluator is a total Lean function of the code's inputs plus the
  collaborators' behaviour.
* `usize` is modelled as `Nat`, `i32`/exit codes as `Int`.
-/

namespace LlmToolTest

/-! ### String primitives

The Rust `str` methods the engine uses are modelled on the character lists
underlying Lean strings, so that every evaluator reduces inside the kernel.
Rust's Unicode whitespace is modelled by `Char.isWhitespace`. -/

/-- Model of `str::starts_with`. -/
def strStartsWith (s pre : String) : Bool :=
  pre.data.isPrefixOf s.data

/-- Drop the first `n` characters of a string (`&s[k..]` on ASCII-prefixed
strings, as the code uses after `strip_prefix`). -/
def strDropChars (s : String) (n : Nat) : String :=
  String.mk (s.data.drop n)

/-- Model of `str::trim`: remove leading and trailing whitespace. -/
def rustTrim (s : String) : String :=
  String.mk (((s.data.dropWhile Char.isWhitespace).reverse.dropWhile Char.isWhitespace).reverse)

/-- Model of `str::to_lowercase` (ASCII letters; the analyzer only compares
against ASCII keywords). -/
def strToLower (s : String) : String :=
  String.mk (s.data.map Char.toLower)

/-- Substring test on character lists: does the needle occur contiguously
anywhere in the haystack? -/
def strContainsAux (needle : List Char) : List Char → Bool
  | [] => needle.isEmpty
  | c :: rest => needle.isPrefixOf (c :: rest) || strContainsAux needle rest

/-- Model of `str::contains(&str)`: case-sensitive substring test. -/
def strContains (hay needle : String) : Bool :=
  strContainsAux needle.data hay.data

/-- Splitter on a character predicate, keeping empty pieces (the behaviour
of `str::split`). -/
def splitByAux (p : Char → Bool) : List Char → List Char → List String
  | [], acc => [String.mk acc.reverse]
  | x :: xs, acc =>
    if p x then String.mk acc.reverse :: splitByAux p xs []
    else splitByAux p xs (x :: acc)

/-- Split a string at every character satisfying `p`, keeping empty
pieces. -/
def splitBy (p : Char → Bool) (s : String) : List String :=
  splitByAux p s.data []

/-- Join a list of strings with a separator (`[T]::join`). -/
def joinWith (sep : String) : List String → String
  | [] => ""
  | [x] => x
  | x :: y :: xs => x ++ sep ++ joinWith sep (y :: xs)

/-- Model of `serde_json::Value`: JSON documents.  Objects are association
lists (serde's map preserves one value per key; we read the first match). -/
inductive Json where
  | null : Json
  | bool (b : Bool) : Json
  | num (q : ℚ) : Json
  | str (s : String) : Json
  | arr (items : List Json) : Json
  | obj (fields : List (String × Json)) : Json
deriving Repr

mutual

/-- Structural equality of JSON values, modelling `serde_json::Value`'s
`PartialEq` (used by the `equals` assertion via `actual == &expected`). -/
def Json.beq : Json → Json → Bool
  | .null, .null => true
  | .bool a, .bool b => a == b
  | .num a, .num b => a == b
  | .str a, .str b => a == b
  | .arr a, .arr b => Json.beqList a b
  | .obj a, .obj b => Json.beqFields a b
  | _, _ => false

/-- Elementwise equality of JSON arrays. -/
def Json.beqList : List Json → List Json → Bool
  | [], [] => true
  | a :: as', b :: bs' => Json.beq a b && Json.beqList as' bs'
  | _, _ => false

/-- Elementwise equality of JSON object field lists. -/
def Json.beqFields : List (String × Json) → List (String × Json) → Bool
  | [], [] => true
  | (ka, va) :: as', (kb, vb) :: bs' =>
      ka == kb && Json.beq va vb && Json.beqFields as' bs'
  | _, _ => false

end

instance : BEq Json := ⟨Json.beq⟩

mutual

/-- Decidable equality of JSON values (structural, agreeing with
`Json.beq`; stated separately so concrete runs can be checked with
`decide`). -/
def Json.decEq : (a b : Json) → Decidable (a = b)
  | .null, .null => .isTrue rfl
  | .bool a, .bool b =>
    if h : a = b then .isTrue (by rw [h]) else .isFalse (fun hc => h (by injection hc))
  | .num a, .num b =>
    if h : a = b then .isTrue (by rw [h]) else .isFalse (fun hc => h (by injection hc))
  | .str a, .str b =>
    if h : a = b then .isTrue (by rw [h]) else .isFalse (fun hc => h (by injection hc))
  | .arr a, .arr b =>
    match Json.decEqList a b with
    | .isTrue h => .isTrue (by rw [h])
    | .isFalse h => .isFalse (fun hc => h (by injection hc))
  | .obj a, .obj b =>
    match Json.decEqFields a b with
    | .isTrue h => .isTrue (by rw [h])
    | .isFalse h => .isFalse (fun hc => h (by injection hc))
  | .null, .bool _ => .isFalse (fun h => Json.noConfusion h)
  | .null, .num _ => .isFalse (fun h => Json.noConfusion h)
  | .null, .str _ => .isFalse (fun h => Json.noConfusion h)
  | .null, .arr _ => .isFalse (fun h => Json.noConfusion h)
  | .null, .obj _ => .isFalse (fun h => Json.noConfusion h)
  | .bool _, .null => .isFalse (fun h => Json.noConfusion h)
  | .bool _, .num _ => .isFalse (fun h => Json.noConfusion h)
  | .bool _, .str _ => .isFalse (fun h => Json.noConfusion h)
  | .bool _, .arr _ => .isFalse (fun h => Json.noConfusion h)
  | .bool _, .obj _ => .isFalse (fun h => Json.noConfusion h)
  | .num _, .null => .isFalse (fun h => Json.noConfusion h)
  | .num _, .bool _ => .isFalse (fun h => Json.noConfusion h)
  | .num _, .str _ => .isFalse (fun h => Json.noConfusion h)
  | .num _, .arr _ => .isFalse (fun h => Json.noConfusion h)
  | .num _, .obj _ => .isFalse (fun h => Json.noConfusion h)
  | .str _, .null => .isFalse (fun h => Json.noConfusion h)
  | .str _, .bool _ => .isFalse (fun h => Json.noConfusion h)
  | .str _, .num _ => .isFalse (fun h => Json.noConfusion h)
  | .str _, .arr _ => .isFalse (fun h => Json.noConfusion h)
  | .str _, .obj _ => .isFalse (fun h => Json.noConfusion h)
  | .arr _, .null => .isFalse (fun h => Json.noConfusion h)
  | .arr _, .bool _ => .isFalse (fun h => Json.noConfusion h)
  | .arr _, .num _ => .isFalse (fun h => Json.noConfusion h)
  | .arr _, .str _ => .isFalse (fun h => Json.noConfusion h)
  | .arr _, .obj _ => .isFalse (fun h => Json.noConfusion h)
  | .obj _, .null => .isFalse (fun h => Json.noConfusion h)
  | .obj _, .bool _ => .isFalse (fun h => Json.noConfusion h)
  | .obj _, .num _ => .isFalse (fun h => Json.noConfusion h)
  | .obj _, .str _ => .isFalse (fun h => Json.noConfusion h)
  | .obj _, .arr _ => .isFalse (fun h => Json.noConfusion h)

/-- Decidable equality of JSON arrays. -/
def Json.decEqList : (a b : List Json) → Decidable (a = b)
  | [], [] => .isTrue rfl
  | [], _ :: _ => .isFalse (fun h => List.noConfusion h)
  | _ :: _, [] => .isFalse (fun h => List.noConfusion h)
  | x :: xs, y :: ys =>
    match Json.decEq x y with
    | .isFalse h1 => .isFalse (fun hc => h1 (by injection hc))
    | .isTrue h1 =>
      match Json.decEqList xs ys with
      | .isTrue h2 => .isTrue (by rw [h1, h2])
      | .isFalse h2 => .isFalse (fun hc => h2 (by injection hc))

/-- Decidable equality of JSON object field lists. -/
def Json.decEqFields : (a b : List (String × Json)) → Decidable (a = b)
  | [], [] => .isTrue rfl
  | [], _ :: _ => .isFalse (fun h => List.noConfusion h)
  | _ :: _, [] => .isFalse (fun h => List.noConfusion h)
  | (ka, va) :: xs, (kb, vb) :: ys =>
    if hk : ka = kb then
      match Json.decEq va vb with
      | .isFalse h1 =>
        .isFalse (fun hc => h1 (by injection hc with h h2; injection h with h3 h4))
      | .isTrue h1 =>
        match Json.decEqFields xs ys with
        | .isTrue h2 => .isTrue (by rw [hk, h1, h2])
        | .isFalse h2 => .isFalse (fun hc => h2 (by injection hc))
    else
      .isFalse (fun hc => hk (by injection hc with h h2; injection h with h3 h4))

end

instance : DecidableEq Json := Json.decEq

/-- Model of `serde_json::Value::get` with a string index: `Some` only when
the value is an object holding the key. -/
def Json.get : Json → String → Option Json
  | .obj fields, key => (fields.find? (fun f => f.1 == key)).map (fun f => f.2)
  | _, _ => none

/-- Model of `serde_json::Value::as_array`. -/
def Json.asArray : Json → Option (List Json)
  | .arr items => some items
  | _ => none

/-- Model of `serde_json::Value::as_object` (the field list). -/
def Json.asObject : Json → Option (List (String × Json))
  | .obj fields => some fields
  | _ => none

/-- Model of `serde_json::Value::as_str`. -/
def Json.asStr : Json → Option String
  | .str s => some s
  | _ => none

/-- Model of `serde_json::Value::is_null`. -/
def Json.isNull : Json → Bool
  | .null => true
  | _ => false

/-- Decidable equality for `Except` results, used to state and check
concrete evaluations of the fallible evaluators. -/
instance {ε α : Type} [DecidableEq ε] [DecidableEq α] : DecidableEq (Except ε α) := fun a b =>
  match a, b with
  | .ok x, .ok y =>
    if h : x = y then .isTrue (by rw [h]) else .isFalse (by intro hc; cases hc; exact h rfl)
  | .error x, .error y =>
    if h : x = y then .isTrue (by rw [h]) else .isFalse (by intro hc; cases hc; exact h rfl)
  | .ok _, .error _ => .isFalse (by intro hc; cases hc)
  | .error _, .ok _ => .isFalse (by intro hc; cases hc)

/-- One segment of the restricted JSON-path language
(`enum JsonPathSegment` in `src/evaluation.rs`). -/
inductive JsonPathSegment where
  | Key (key : String) : JsonPathSegment
  | Index (index : Nat) : JsonPathSegment
deriving Repr, DecidableEq

/-- Model of Rust `usize::from_str` as used on the bracket index text:
an optional leading `+` sign, then one or more ASCII digits, value below
`2^64` (64-bit `usize`); anything else is a parse error. -/
def parseUsize (s : String) : Option Nat :=
  let ds := match s.data with
    | '+' :: rest => rest
    | other => other
  if ds.isEmpty || !ds.all Char.isDigit then none
  else
    let v := ds.foldl (fun acc c => acc * 10 + (c.toNat - 48)) 0
    if v < 2 ^ 64 then some v else none

/-- Segment scanner of `parse_json_path` (`src/evaluation.rs`), working on
the character list after the leading `$`.  Mirrors the index-based `while`
loop: a `.` starts a key running to the next `.` or `[`; a `[` starts a
decimal index running to `]`; any other character is an error.  Each loop
iteration consumes at least one character; the `fuel` argument (always
called with at least the character count, see `parse_json_path`) only makes
the recursion structural and is never exhausted. -/
def parseJsonPathSegments : Nat → List Char → Except String (List JsonPathSegment)
  | _, [] => .ok []
  | 0, _ :: _ => .error "out of fuel"
  | fuel + 1, c :: rest =>
    if c = '.' then
      let keyChars := rest.takeWhile (fun ch => ch != '.' && ch != '[')
      if keyChars.isEmpty then .error "empty object key in path"
      else do
        let segs ← parseJsonPathSegments fuel (rest.drop keyChars.length)
        .ok (JsonPathSegment.Key (String.mk keyChars) :: segs)
    else if c = '[' then
      let idxChars := rest.takeWhile (fun ch => ch != ']')
      match rest.drop idxChars.length with
      | [] => .error "unclosed array index bracket"
      | _ :: rest' =>
        let indexText := String.mk idxChars
        match parseUsize indexText with
        | none => .error ("invalid array index '" ++ indexText ++ "'")
        | some index => do
          let segs ← parseJsonPathSegments fuel rest'
          .ok (JsonPathSegment.Index index :: segs)
    else
      .error ("unexpected character '" ++ String.mk [c] ++ "' in path")

/-- Model of `parse_json_path` (`src/evaluation.rs:319`): the path must start
with `$`; a bare `$` is the document root (no segments); otherwise the rest
of the characters are scanned into segments. -/
def parse_json_path (path : String) : Except String (List JsonPathSegment) :=
  if !strStartsWith path "$" then .error "path must start with '$'"
  else if path == "$" then .ok []
  else parseJsonPathSegments path.data.length (path.data.drop 1)

/-- The resolution loop of `resolve_json_path`: walk the segments, returning
`none` (not an error) at the first missing key, wrong-type value or
out-of-range index. -/
def resolveSegments : Json → List JsonPathSegment → Option Json
  | current, [] => some current
  | current, JsonPathSegment.Key key :: rest =>
    match current.get key with
    | none => none
    | some next => resolveSegments next rest
  | current, JsonPathSegment.Index index :: rest =>
    match current.asArray with
    | none => none
    | some array =>
      match array.get? index with
      | none => none
      | some next => resolveSegments next rest

/-- Model of `resolve_json_path` (`src/evaluation.rs:369`): parse the path,
then walk the segments; only the parse can produce an error. -/
def resolve_json_path (json : Json) (path : String) : Except String (Option Json) := do
  let segments ← parse_json_path path
  .ok (resolveSegments json segments)

/-- Spec-side structural lookup (claim C4's words): follow the sequence of
keys and indices directly through the JSON constructors, `none` as soon as a
key is absent, the value is not an object/array, or an index is out of
range. -/
def structuralLookup : Json → List JsonPathSegment → Option Json
  | j, [] => some j
  | .obj fields, JsonPathSegment.Key key :: rest =>
    match fields.find? (fun f => f.1 == key) with
    | some f => structuralLookup f.2 rest
    | none => none
  | _, JsonPathSegment.Key _ :: _ => none
  | .arr items, JsonPathSegment.Index index :: rest =>
    match items.get? index with
    | some item => structuralLookup item rest
    | none => none
  | _, JsonPathSegment.Index _ :: _ => none

mutual

/-- Rendering of a JSON value, modelling `serde_json`'s compact `Display`
(string escaping and float formatting are not modelled bit-for-bit; the
rendering only feeds diagnostic messages). -/
def Json.render : Json → String
  | .null => "null"
  | .bool b => if b then "true" else "false"
  | .num q => toString q
  | .str s => "\"" ++ s ++ "\""
  | .arr items => "[" ++ Json.renderList items ++ "]"
  | .obj fields => "\x7b" ++ Json.renderFields fields ++ "\x7d"

/-- Comma-separated rendering of array elements. -/
def Json.renderList : List Json → String
  | [] => ""
  | [x] => Json.render x
  | x :: y :: xs => Json.render x ++ "," ++ Json.renderList (y :: xs)

/-- Comma-separated rendering of object fields. -/
def Json.renderFields : List (String × Json) → String
  | [] => ""
  | [(k, v)] => "\"" ++ k ++ "\":" ++ Json.render v
  | (k, v) :: f :: fs => "\"" ++ k ++ "\":" ++ Json.render v ++ "," ++ Json.renderFields (f :: fs)

end

/-- Tail of the `len` regex after the operator: optional whitespace then
one or more digits running to the end of the string; on success the
captured operator and digit text. -/
def matchLenDigits (op : String) (rest : List Char) : Option (String × String) :=
  let ds := rest.dropWhile Char.isWhitespace
  if ds.isEmpty || !ds.all Char.isDigit then none
  else some (op, String.mk ds)

/-- The anchored `len` regex `^len\s*(>=|==|>)\s*(\d+)$` of
`evaluate_json_assertion`, modelled as a deterministic matcher returning the
two capture groups (operator text and digit text) when the whole string is
in the regex's language.  `\s` is modelled by `Char.isWhitespace`; the
alternation tries `>=` before `>`, as the regex engine does. -/
def matchLenAssertion (s : String) : Option (String × String) :=
  if !strStartsWith s "len" then none
  else
    match (s.data.drop 3).dropWhile Char.isWhitespace with
    | '>' :: '=' :: rest => matchLenDigits ">=" rest
    | '=' :: '=' :: rest => matchLenDigits "==" rest
    | '>' :: rest => matchLenDigits ">" rest
    | _ => none

/-- Element or key count of a JSON array or object (`as_array`/`as_object`
length in the `len` branch); `none` for scalars. -/
def Json.collectionLen : Json → Option Nat
  | .arr items => some items.length
  | .obj fields => some fields.length
  | _ => none

/-- Model of `evaluate_json_assertion` (`src/evaluation.rs:399`).  The
`serde_json::from_str` used by the `equals` fallback is the abstract
collaborator `pj`.  Branches are tried in source order: `exists`, `equals `,
`contains `, the `len` regex, otherwise a syntax error. -/
def evaluate_json_assertion (pj : String → Except String Json)
    (value : Option Json) (assertion : String) : Except String (Bool × String) :=
  let trimmed := rustTrim assertion
  if trimmed == "exists" then
    let passed := match value with
      | some v => !v.isNull
      | none => false
    .ok (passed, "value exists and is not null")
  else if strStartsWith trimmed "equals " then
    let expectedText := strDropChars trimmed 7
    match value with
    | none => .ok (false, "path not found")
    | some actual =>
      let expected := match pj expectedText with
        | .ok v => v
        | .error _ => Json.str expectedText
      let passed := actual == expected
      .ok (passed, "actual=" ++ actual.render ++ ", expected=" ++ expected.render)
  else if strStartsWith trimmed "contains " then
    let needle := strDropChars trimmed 9
    match value with
    | none => .ok (false, "path not found")
    | some actual =>
      match actual.asStr with
      | none => .ok (false, "value is not a string")
      | some text =>
        let passed := strContains text needle
        .ok (passed, "substring='" ++ needle ++ "'")
  else
    match matchLenAssertion trimmed with
    | none =>
      .error "assertion must be one of: exists, equals <value>, contains <substring>, len >= N, len == N, len > N"
    | some (operator, digitsText) =>
      match value with
      | none => .ok (false, "path not found")
      | some actual =>
        match parseUsize digitsText with
        | none => .error "length must be a non-negative integer"
        | some expected_len =>
          match actual.collectionLen with
          | none => .ok (false, "value is not an array or object")
          | some actual_len =>
            let passedE : Except String Bool :=
              if operator == ">=" then .ok (decide (actual_len ≥ expected_len))
              else if operator == "==" then .ok (actual_len == expected_len)
              else if operator == ">" then .ok (decide (actual_len > expected_len))
              else .error ("unsupported length operator '" ++ operator ++ "'")
            match passedE with
            | .error e => .error e
            | .ok passed =>
              .ok (passed,
                "actual_len=" ++ toString actual_len ++ " " ++ operator ++ " " ++ toString expected_len)

/-- Model of `ScriptResult` (`src/script_runner.rs`): outcome of one bounded
shell invocation by the `ScriptRunner`. -/
structure ScriptResult where
  exit_code : Int
  stdout : String
  stderr : String
  timed_out : Bool
deriving Repr, DecidableEq

/-- Model of `ScriptResult::succeeded`: exit code 0 and no timeout. -/
def ScriptResult.succeeded (r : ScriptResult) : Bool :=
  r.exit_code == 0 && !r.timed_out

/-- Model of the local `struct ScriptGateOutput` deserialized from a script
gate's stdout: required boolean `passed`, optional string `message`. -/
structure ScriptGateOutput where
  passed : Bool
  message : Option String
deriving Repr, DecidableEq

/-- Extraction of a `ScriptGateOutput` from a parsed JSON value, modelling
serde's derived deserializer: the value must be an object, `passed` must be
a JSON boolean, `message` may be absent or null (→ `none`) or a string;
a `message` of any other shape fails the whole parse (unknown fields are
ignored, as serde does by default). -/
def parseScriptGateOutput (j : Json) : Option ScriptGateOutput :=
  match j.asObject with
  | none => none
  | some fields =>
    match (fields.find? (fun f => f.1 == "passed")).map (fun f => f.2) with
    | some (Json.bool b) =>
      match (fields.find? (fun f => f.1 == "message")).map (fun f => f.2) with
      | none => some ⟨b, none⟩
      | some Json.null => some ⟨b, none⟩
      | some (Json.str s) => some ⟨b, some s⟩
      | some _ => none
    | _ => none

/-- Model of `GateResult` (`src/evaluation.rs:596`): uniform outcome of one gate. -/
structure GateResult where
  gate_type : String
  passed : Bool
  message : String
deriving Repr, DecidableEq

/-- Model of `eval_script` (`src/evaluation.rs:471`).  The script runner is
an abstract collaborator `String → Nat → Except String ScriptResult`
(command, timeout seconds ↦ `anyhow::Result<ScriptResult>`); `pj` models
`serde_json::from_str` on the trimmed stdout. -/
def eval_script (pj : String → Except String Json) (command description : String)
    (script_runner : Option (String → Nat → Except String ScriptResult)) : GateResult :=
  match script_runner with
  | none =>
    ⟨"Script", false, "Script runner not available for script gate evaluation"⟩
  | some runner =>
    match runner command 30 with
    | .error e =>
      ⟨"Script", false, "Failed to execute script '" ++ command ++ "': " ++ e⟩
    | .ok result =>
      if result.timed_out then
        ⟨"Script", false, "Script '" ++ command ++ "' timed out after 30 seconds"⟩
      else
        let stdout := rustTrim result.stdout
        match (pj stdout).toOption.bind parseScriptGateOutput with
        | some parsed =>
          ⟨"Script", parsed.passed, parsed.message.getD description⟩
        | none =>
          let passed := result.exit_code == 0
          ⟨"Script", passed,
            "Script '" ++ command ++ "' " ++ (if passed then "passed" else "failed") ++
              " (exit code: " ++ toString result.exit_code ++ ", description: " ++
              description ++ ")"⟩

/-- Model of `std::process::Output` as observed by the gate evaluators:
exit-status success flag, optional status code, lossily decoded stdout and
stderr. -/
structure ProcOutput where
  status_success : Bool
  status_code : Option Int
  stdout : String
  stderr : String
deriving Repr, DecidableEq

/-- A compiled regex of the `regex` crate: its match test and its captures
(group number ↦ captured text of the first match of a line). -/
structure RegexM where
  isMatch : String → Bool
  captures : String → Option (Nat → Option String)

/-- The external collaborators behind the evaluation engine: the shell
(`run_shell_command`, taking `env_root` and the command string), the file
system, `Regex::new`, `serde_json::from_str`, and the capture of group 1 of
the hard-coded (always valid, hence `unwrap`-safe) exit-code regex
`(?i)exit\s+(?:code|status):?\s*(\d+)` on a block of lookahead text. -/
structure World where
  runShell : String → String → Except String ProcOutput
  pathExists : String → Bool
  readFile : String → Except String String
  regexNew : String → Except String RegexM
  parseJson : String → Except String Json
  exitCodeCapture : String → Option String

/-- Model of `Path::join` on the textual paths the engine forms. -/
def joinPath (root path : String) : String :=
  root ++ "/" ++ path

/-- Debug rendering of `Option<i32>` as Rust's `{:?}` prints it. -/
def optIntDebug : Option Int → String
  | some n => "Some(" ++ toString n ++ ")"
  | none => "None"

/-- Model of `eval_command_succeeds` (`src/evaluation.rs:76`). -/
def eval_command_succeeds (w : World) (command env_root : String) : GateResult :=
  if rustTrim command == "" then
    ⟨"CommandSucceeds", false, "Empty command"⟩
  else
    match w.runShell env_root command with
    | .ok output =>
      let succeeds := output.status_success
      ⟨"CommandSucceeds", succeeds,
        "Command '" ++ command ++ "' succeeded: " ++ toString succeeds⟩
    | .error e =>
      ⟨"CommandSucceeds", false, "Failed to execute command '" ++ command ++ "': " ++ e⟩

/-- Model of `eval_command_output_contains` (`src/evaluation.rs:104`). -/
def eval_command_output_contains (w : World) (command substring env_root : String) : GateResult :=
  match w.runShell env_root command with
  | .ok output =>
    let passed := output.status_success && strContains output.stdout substring
    ⟨"CommandOutputContains", passed,
      "Command '" ++ command ++ "' contains substring '" ++ substring ++ "': " ++ toString passed⟩
  | .error e =>
    ⟨"CommandOutputContains", false, "Failed to execute command '" ++ command ++ "': " ++ e⟩

/-- Model of `eval_command_output_matches` (`src/evaluation.rs:128`). -/
def eval_command_output_matches (w : World) (command pattern env_root : String) : GateResult :=
  match w.regexNew pattern with
  | .error e =>
    ⟨"CommandOutputMatches", false, "Invalid regex pattern '" ++ pattern ++ "': " ++ e⟩
  | .ok regex =>
    match w.runShell env_root command with
    | .ok output =>
      let passed := output.status_success && regex.isMatch output.stdout
      ⟨"CommandOutputMatches", passed,
        "Command '" ++ command ++ "' matches pattern '" ++ pattern ++ "': " ++ toString passed⟩
    | .error e =>
      ⟨"CommandOutputMatches", false, "Failed to execute command '" ++ command ++ "': " ++ e⟩

/-- Model of `eval_command_json_path` (`src/evaluation.rs:163`). -/
def eval_command_json_path (w : World) (command path assertion env_root : String) : GateResult :=
  match w.runShell env_root command with
  | .error e =>
    ⟨"CommandJsonPath", false, "Failed to execute command '" ++ command ++ "': " ++ e⟩
  | .ok output =>
    if !output.status_success then
      ⟨"CommandJsonPath", false,
        "Command '" ++ command ++ "' failed with exit code " ++ optIntDebug output.status_code ++
          ": " ++ rustTrim output.stderr⟩
    else
      match w.parseJson output.stdout with
      | .error e =>
        ⟨"CommandJsonPath", false, "Command output is not valid JSON: " ++ e⟩
      | .ok json =>
        match resolve_json_path json path with
        | .error e =>
          ⟨"CommandJsonPath", false, "Invalid JSON path '" ++ path ++ "': " ++ e⟩
        | .ok resolved_value =>
          match evaluate_json_assertion w.parseJson resolved_value assertion with
          | .error e =>
            ⟨"CommandJsonPath", false, "Invalid assertion '" ++ assertion ++ "': " ++ e⟩
          | .ok (passed, detail) =>
            ⟨"CommandJsonPath", passed,
              "Path '" ++ path ++ "' with assertion '" ++ assertion ++ "' => " ++
                toString passed ++ " (" ++ detail ++ ")"⟩

/-- Model of `eval_file_exists` (`src/evaluation.rs:236`). -/
def eval_file_exists (w : World) (path env_root : String) : GateResult :=
  let full_path := joinPath env_root path
  let passed := w.pathExists full_path
  ⟨"FileExists", passed, "File '" ++ full_path ++ "' exists: " ++ toString passed⟩

/-- Model of `eval_file_contains` (`src/evaluation.rs:246`). -/
def eval_file_contains (w : World) (path substring env_root : String) : GateResult :=
  let full_path := joinPath env_root path
  match w.readFile full_path with
  | .ok content =>
    let passed := strContains content substring
    ⟨"FileContains", passed,
      "File '" ++ full_path ++ "' contains substring '" ++ substring ++ "': " ++ toString passed⟩
  | .error e =>
    ⟨"FileContains", false, "Failed to read file '" ++ full_path ++ "': " ++ e⟩

/-- Model of `eval_file_matches` (`src/evaluation.rs:270`). -/
def eval_file_matches (w : World) (path pattern env_root : String) : GateResult :=
  match w.regexNew pattern with
  | .error e =>
    ⟨"FileMatches", false, "Invalid regex pattern '" ++ pattern ++ "': " ++ e⟩
  | .ok regex =>
    let full_path := joinPath env_root path
    match w.readFile full_path with
    | .ok content =>
      let passed := regex.isMatch content
      ⟨"FileMatches", passed,
        "File '" ++ full_path ++ "' matches pattern '" ++ pattern ++ "': " ++ toString passed⟩
    | .error e =>
      ⟨"FileMatches", false, "Failed to read file '" ++ full_path ++ "': " ++ e⟩

/-- Model of `CommandEvent` (`src/transcript/types.rs:99`): one inferred CLI
invocation from the transcript. -/
structure CommandEvent where
  command : String
  exit_code : Option Int
deriving Repr, DecidableEq

/-- Model of `EfficiencyMetrics` (`src/transcript/types.rs:88`); the two `f64` rates
are modelled as rationals. -/
structure EfficiencyMetrics where
  total_commands : Nat
  unique_commands : Nat
  error_count : Nat
  retry_count : Nat
  help_invocations : Nat
  first_try_success_rate : ℚ
  iteration_ratio : ℚ
deriving Repr, DecidableEq

/-- The per-event error flag of `analyze_with_events`:
`event.exit_code.map(|code| code != 0).unwrap_or(false)`. -/
def eventIsError (e : CommandEvent) : Bool :=
  (e.exit_code.map (fun code => code != 0)).getD false

/-- The event-to-`(command, is_error)` pairing loop of `analyze_with_events`
(`None` events give an empty command list). -/
def eventsToCommands (events : Option (List CommandEvent)) : List (String × Bool) :=
  match events with
  | some command_events => command_events.map (fun e => (e.command, eventIsError e))
  | none => []

/-- The `first_try_success_count` filter of `analyze_with_events`
(`src/transcript/analyzer.rs:76`), transliterated: an element is counted
when the length of the `take_while`-prefix before its command's first
occurrence equals `position` of that first occurrence (defaulting to 0),
and no element of that prefix is an error. -/
def firstTrySuccessCount (commands : List (String × Bool)) : Nat :=
  (commands.filter (fun p =>
    ((commands.takeWhile (fun q => q.1 != p.1)).length ==
        ((commands.findIdx? (fun q => q.1 == p.1)).getD 0)) &&
      !((commands.takeWhile (fun q => q.1 != p.1)).any (fun q => q.2)))).length

/-- Model of `TranscriptAnalyzer::analyze_with_events`
(`src/transcript/analyzer.rs:55`).  The `HashSet` of command names is
modelled by `List.dedup`; `saturating_sub` is `Nat` subtraction. -/
def analyze_with_events (_transcript : String) (events : Option (List CommandEvent)) :
    EfficiencyMetrics :=
  let commands := eventsToCommands events
  let total_commands := commands.length
  let error_count := (commands.filter (fun c => c.2)).length
  let help_invocations := (commands.filter (fun c => c.1 == "help")).length
  let unique_commands := (commands.map (fun c => c.1)).dedup
  let retry_count := total_commands - unique_commands.length
  let first_try_success_count := firstTrySuccessCount commands
  let first_try_success_rate : ℚ :=
    if total_commands > 0 then (first_try_success_count : ℚ) / (total_commands : ℚ) else 0
  let iteration_ratio : ℚ :=
    if !unique_commands.isEmpty then (total_commands : ℚ) / (unique_commands.length : ℚ) else 0
  { total_commands := total_commands
    unique_commands := unique_commands.length
    error_count := error_count
    retry_count := retry_count
    help_invocations := help_invocations
    first_try_success_rate := first_try_success_rate
    iteration_ratio := iteration_ratio }

/-- Model of `regex::escape`: every character outside `[A-Za-z0-9_]` is
preceded by a backslash (an over-approximation of the crate's meta-character
set; the resulting pattern string is only ever consumed by the abstract
regex engine). -/
def regexEscape (s : String) : String :=
  String.mk ((s.data.map (fun c =>
    if c.isAlphanum || c == '_' then [c] else ['\\', c])).flatten)

/-- Model of `TranscriptAnalyzer::resolve_command_pattern`
(`src/transcript/analyzer.rs:45`): a non-blank caller override is used
verbatim; otherwise the pattern is synthesized from the escaped binary
name. -/
def resolve_command_pattern (target_binary : String) (command_pattern : Option String) : String :=
  match command_pattern with
  | some pattern =>
    if rustTrim pattern != "" then pattern
    else "^\\s*(" ++ regexEscape target_binary ++ ")\\s+(--help|\\S+)\\b"
  | none => "^\\s*(" ++ regexEscape target_binary ++ ")\\s+(--help|\\S+)\\b"

/-- Model of `TranscriptAnalyzer::is_error_line`
(`src/transcript/analyzer.rs:111`). -/
def is_error_line (line : String) : Bool :=
  let line_lower := strToLower line
  strContains line_lower "error" || strContains line_lower "failed" ||
    strContains line_lower "exit code" || strContains line_lower "non-zero"

/-- Model of `str::lines`: split on `\n`, dropping one trailing empty piece
and stripping a trailing `\r` from each line. -/
def strLines (s : String) : List String :=
  let parts := splitBy (fun c => c == '\n') s
  let parts := if parts.getLast? == some "" then parts.dropLast else parts
  parts.map (fun l =>
    if l.data.getLast? == some '\r' then String.mk l.data.dropLast else l)

/-- Model of `str::eq_ignore_ascii_case`. -/
def eqIgnoreAsciiCase (a b : String) : Bool :=
  strToLower a == strToLower b

/-- Model of `str::split_whitespace`. -/
def splitWhitespace (s : String) : List String :=
  (splitBy Char.isWhitespace s).filter (fun piece => piece ≠ "")

/-- Model of `i32::from_str` on a run of ASCII digits (the exit-code
capture): overflow past `i32::MAX` is a parse error, which the call site
turns into `-1` via `unwrap_or(-1)`. -/
def parseCapturedI32 (s : String) : Int :=
  if s.data.isEmpty || !s.data.all Char.isDigit then -1
  else
    let v : Nat := s.data.foldl (fun acc c => acc * 10 + (c.toNat - 48)) 0
    if v ≤ 2147483647 then (v : Int) else -1

/-- The per-line body of the extraction loop of
`extract_commands_with_pattern`: given the compiled regex, the full line
list, the line index and the line, produce the event (if any) this line
contributes. -/
def extractEventAtLine (w : World) (command_regex : RegexM) (lines : List String)
    (i : Nat) (line : String) : Option CommandEvent :=
  match command_regex.captures line with
  | none => none
  | some caps =>
    let binary := caps 1
    let skip := match binary with
      | some binary_name =>
        eqIgnoreAsciiCase binary_name "exit" || eqIgnoreAsciiCase binary_name "error" ||
          eqIgnoreAsciiCase binary_name "failed"
      | none => false
    if skip then none
    else
      let subcommand := match caps 2 with
        | some subcommand_match => subcommand_match
        | none =>
          match caps 1 with
          | some primary_capture => primary_capture
          | none =>
            match splitWhitespace line with
            | _ :: second :: _ => second
            | _ => "command"
      let is_help := subcommand == "--help" || strContains line "--help"
      if is_help then
        some ⟨"help", some 0⟩
      else
        let next_lines := (lines.drop (i + 1)).take 20
        let joined := joinWith "\n" next_lines
        let exit_code : Int :=
          match w.exitCodeCapture joined with
          | some captured => parseCapturedI32 captured
          | none => if is_error_line joined then 1 else 0
        some ⟨subcommand, some exit_code⟩

/-- Model of `TranscriptAnalyzer::extract_commands_with_pattern`
(`src/transcript/analyzer.rs:132`): if `Regex::new` fails on the caller's
pattern the function silently returns an empty event list; otherwise each
line is matched and contributes at most one event. -/
def extract_commands_with_pattern (w : World) (transcript command_pattern : String) :
    List CommandEvent :=
  match w.regexNew command_pattern with
  | .error _ => []
  | .ok command_regex =>
    let lines := strLines transcript
    (lines.enum.map (fun li => extractEventAtLine w command_regex lines li.1 li.2)).reduceOption

/-- Model of `TranscriptAnalyzer::analyze_with_exit_codes_for_target`
(`src/transcript/analyzer.rs:30`). -/
def analyze_with_exit_codes_for_target (w : World) (transcript target_binary : String)
    (command_pattern : Option String) : EfficiencyMetrics :=
  let pattern := resolve_command_pattern target_binary command_pattern
  let commands := extract_commands_with_pattern w transcript pattern
  analyze_with_events transcript (some commands)

/-- Model of `no_transcript_errors` (`src/eval_helpers.rs:5`): read
`transcript.raw.txt` under the environment root (read failure is an
`anyhow` error with the added context) and report whether the analyzed
`error_count` is zero. -/
def no_transcript_errors (w : World) (env_root target_binary : String)
    (command_pattern : Option String) : Except String Bool :=
  match w.readFile (joinPath env_root "transcript.raw.txt") with
  | .error e => .error ("Failed to read transcript file (missing or unreadable): " ++ e)
  | .ok content =>
    .ok ((analyze_with_exit_codes_for_target w content target_binary command_pattern).error_count
      == 0)

/-- Model of `eval_no_transcript_errors` (`src/evaluation.rs:537`), the
expansion of the `eval_gate!` macro around `no_transcript_errors`. -/
def eval_no_transcript_errors (w : World) (env_root target_binary : String)
    (command_pattern : Option String) : GateResult :=
  match no_transcript_errors w env_root target_binary command_pattern with
  | .ok no_errors =>
    ⟨"NoTranscriptErrors", no_errors, "Transcript has no command errors: " ++ toString no_errors⟩
  | .error e =>
    ⟨"NoTranscriptErrors", false, "Evaluation error: " ++ e⟩

/-- Model of `Gate` (`src/scenario/types.rs:160`): the closed union of gate
variants. -/
inductive Gate where
  | CommandSucceeds (command : String) : Gate
  | CommandOutputContains (command substring : String) : Gate
  | CommandOutputMatches (command pattern : String) : Gate
  | CommandJsonPath (command path assertion : String) : Gate
  | FileExists (path : String) : Gate
  | FileContains (path substring : String) : Gate
  | FileMatches (path pattern : String) : Gate
  | NoTranscriptErrors : Gate
  | Script (command description : String) : Gate
deriving Repr, DecidableEq

/-- Model of `EvaluationContext` (`src/evaluation.rs:34`): environment root, target
binary, optional command-pattern override and optional script runner. -/
structure EvaluationContext where
  env_root : String
  target_binary : String
  command_pattern : Option String
  script_runner : Option (String → Nat → Except String ScriptResult)

/-- Model of `impl GateEvaluator for Gate` (`src/evaluation.rs:45`):
dispatch over the gate variants. -/
def Gate.evaluate (gate : Gate) (ctx : EvaluationContext) (w : World) : GateResult :=
  match gate with
  | .CommandSucceeds command => eval_command_succeeds w command ctx.env_root
  | .CommandOutputContains command substring =>
    eval_command_output_contains w command substring ctx.env_root
  | .CommandOutputMatches command pattern =>
    eval_command_output_matches w command pattern ctx.env_root
  | .CommandJsonPath command path assertion =>
    eval_command_json_path w command path assertion ctx.env_root
  | .FileExists path => eval_file_exists w path ctx.env_root
  | .FileContains path substring => eval_file_contains w path substring ctx.env_root
  | .FileMatches path pattern => eval_file_matches w path pattern ctx.env_root
  | .NoTranscriptErrors =>
    eval_no_transcript_errors w ctx.env_root ctx.target_binary ctx.command_pattern
  | .Script command description => eval_script w.parseJson command description ctx.script_runner

/-- Model of `evaluate_gates` (`src/evaluation.rs:603`): evaluate the gates
one at a time in declaration order, collecting every result and counting the
passed ones (the `println!` progress logging is incidental I/O). -/
def evaluate_gates (gates : List Gate) (ctx : EvaluationContext) (w : World) :
    List GateResult × Nat :=
  gates.foldl (fun acc gate =>
    let result := gate.evaluate ctx w
    (acc.1 ++ [result], if result.passed then acc.2 + 1 else acc.2)) ([], 0)

/-- Model of `CompositeConfig` (`src/scenario/types.rs:130`), weights as rationals. -/
structure CompositeConfig where
  judge_weight : ℚ
  gate_weight : ℚ
  interaction_weight : ℚ
deriving Repr, DecidableEq

/-- Model of `compute_composite_score` (`src/eval_helpers.rs:40`): weighted
sum of judge, gate-ratio and first-try-success components, clamped to
`[0, 1]` (`f64::clamp` on that range). -/
def compute_composite_score (judge_score : Option ℚ) (gates_passed gates_total : Nat)
    (efficiency : EfficiencyMetrics) (weights : Option CompositeConfig) : ℚ :=
  let ws := match weights with
    | some w => (w.judge_weight, w.gate_weight, w.interaction_weight)
    | none => ((55 : ℚ) / 100, (35 : ℚ) / 100, (10 : ℚ) / 100)
  let judge_component := judge_score.getD 0
  let gates_component : ℚ :=
    if gates_total > 0 then (gates_passed : ℚ) / (gates_total : ℚ) else 0
  let efficiency_component := efficiency.first_try_success_rate
  let composite := ws.1 * judge_component + ws.2.1 * gates_component +
    ws.2.2 * efficiency_component
  if composite < 0 then 0 else if composite > 1 then 1 else composite

/-- Model of `CacheKey` (`src/results/types/cache_key.rs:11`). -/
structure CacheKey where
  scenario_hash : String
  prompt_hash : String
  tool : String
  model : String
deriving Repr, DecidableEq

/-- Model of `CacheKey::compute` (`src/results/types/cache_key.rs:38`).
The SHA-256 hex digest of the `sha2` crate is the abstract collaborator
`sha256hex` (a pure function of the input bytes). -/
def CacheKey.compute (sha256hex : String → String)
    (scenario_yaml prompt tool model : String) : CacheKey :=
  { scenario_hash := sha256hex scenario_yaml
    prompt_hash := sha256hex prompt
    tool := tool
    model := model }

/-- The model-name sanitization of `CacheKey::as_string`:
`self.model.replace(['/', '\\'], "_")`, each matching character replaced by
one underscore. -/
def sanitizeModel (model : String) : String :=
  String.mk ((model.data.map (fun c =>
    if c == '/' || c == '\\' then ['_'] else [c])).flatten)

/-- Model of `CacheKey::as_string` (`src/results/types/cache_key.rs:62`). -/
def CacheKey.as_string (key : CacheKey) : String :=
  key.scenario_hash ++ "_" ++ key.prompt_hash ++ "_" ++ key.tool ++ "_" ++
    sanitizeModel key.model

/-! ### Spec-side definitions

Definitions below transcribe the *specification's words* (not the code);
they exist to be compared with the code-side definitions above. -/

/-- Spec-side first-try count (claim C1's words): events whose command's
first occurrence in the sequence had no error and is preceded by no
erroring event. -/
def firstTrySpecCount (commands : List (String × Bool)) : Nat :=
  (commands.filter (fun p =>
    (match commands.get? (commands.findIdx (fun q => q.1 == p.1)) with
      | some firstOcc => !firstOcc.2
      | none => false) &&
    (commands.take (commands.findIdx (fun q => q.1 == p.1))).all (fun q => !q.2))).length

/-- Spec-side first-try success rate (claim C1's words): `firstTrySpecCount`
over the total number of commands, `0` when there are none. -/
def firstTrySpecRate (events : List CommandEvent) : ℚ :=
  let commands := eventsToCommands (some events)
  if commands.length > 0 then (firstTrySpecCount commands : ℚ) / (commands.length : ℚ) else 0

/-- Amended first-try count: events whose command's first occurrence is
preceded by no erroring event — the error status of the first occurrence
itself is not consulted (this is what the code computes). -/
def firstTryAmendedCount (commands : List (String × Bool)) : Nat :=
  (commands.filter (fun p =>
    (commands.take (commands.findIdx (fun q => q.1 == p.1))).all (fun q => !q.2))).length

/-- Spec-side composite-score formula (claim C2's words): weighted sum
`0.55 * judge + 0.35 * gates + 0.10 * first_try_success_rate` with the
stated defaults for absent judge and zero gates, clamped to `[0, 1]`. -/
def compositeSpecFormula (judge_score : Option ℚ) (gates_passed gates_total : Nat)
    (first_try_success_rate : ℚ) : ℚ :=
  let judge_component : ℚ := match judge_score with
    | some s => s
    | none => 0
  let gates_component : ℚ :=
    if gates_total > 0 then (gates_passed : ℚ) / (gates_total : ℚ) else 0
  let raw := (55 : ℚ) / 100 * judge_component + (35 : ℚ) / 100 * gates_component +
    (10 : ℚ) / 100 * first_try_success_rate
  max 0 (min 1 raw)

/-- Spec-side comparison used by the `len` assertion forms. -/
def lenComparePasses (operator : String) (actual_len expected_len : Nat) : Bool :=
  if operator == ">=" then decide (actual_len ≥ expected_len)
  else if operator == "==" then actual_len == expected_len
  else decide (actual_len > expected_len)

/-- Spec-side sanitization (claim C9's words): every `/` and `\` character
of the model string replaced by `_`. -/
def replaceSeps : List Char → List Char
  | [] => []
  | c :: rest => (if c = '/' ∨ c = '\\' then '_' else c) :: replaceSeps rest

/-- The all-zero `EfficiencyMetrics` (claim C10: what an empty event list
yields, and also the engine's fallback default). -/
def zeroEfficiencyMetrics : EfficiencyMetrics :=
  { total_commands := 0
    unique_commands := 0
    error_count := 0
    retry_count := 0
    help_invocations := 0
    first_try_success_rate := 0
    iteration_ratio := 0 }

/-! ### Concrete fixtures for witnesses -/

/-- A world in which every external collaborator fails: the shell errors,
no file exists, regexes do not compile, JSON never parses. -/
def trivialWorld : World :=
  { runShell := fun _ _ => .error "io error"
    pathExists := fun _ => false
    readFile := fun _ => .error "no such file"
    regexNew := fun _ => .error "bad regex"
    parseJson := fun _ => .error "bad json"
    exitCodeCapture := fun _ => none }

/-- A world whose regex engine rejects every pattern but whose file system
serves a transcript file (for claim C10). -/
def worldInvalidRegex : World :=
  { runShell := fun _ _ => .error "io error"
    pathExists := fun _ => false
    readFile := fun _ => .ok "tool run one\nerror: it failed\ntool run two"
    regexNew := fun _ => .error "regex parse error"
    parseJson := fun _ => .error "bad json"
    exitCodeCapture := fun _ => none }

/-- A concrete evaluation context for witnesses. -/
def ctx0 : EvaluationContext :=
  { env_root := "/env"
    target_binary := "tool"
    command_pattern := none
    script_runner := none }

/-! ## Theorems -/

/-- The per-character pieces of `sanitizeModel` concatenate to the
spec-side `replaceSeps` character map. -/
theorem sanitize_join_eq_replaceSeps (cs : List Char) :
    ((cs.map (fun c => if c == '/' || c == '\\' then ['_'] else [c])).flatten : List Char) =
      replaceSeps cs := by
  induction cs with
  | nil => simp [replaceSeps]
  | cons c rest ih =>
    simp only [Bool.or_eq_true, beq_iff_eq] at ih
    by_cases h1 : c = '/'
    · subst h1; simp [replaceSeps, ih]
    · by_cases h2 : c = '\\'
      · subst h2; simp [replaceSeps, ih]
      · simp [replaceSeps, h1, h2, ih]

/-- C9: for every `CacheKey`, its string form is
`scenario_hash _ prompt_hash _ tool _ sanitized-model`, where the sanitized
model replaces every `/` and `\` character by `_`. -/
theorem cache_key_string_form (key : CacheKey) :
    key.as_string =
      key.scenario_hash ++ "_" ++ key.prompt_hash ++ "_" ++ key.tool ++ "_" ++
        String.mk (replaceSeps key.model.data) := by
  unfold CacheKey.as_string sanitizeModel
  rw [sanitize_join_eq_replaceSeps]

/-- C8: `CacheKey::compute` is deterministic — its four fields are pure
functions of the four inputs (`scenario_hash` of the scenario bytes alone,
`prompt_hash` of the prompt bytes alone, `tool` and `model` copied
verbatim) — so equal inputs give an equal key, changing one input leaves
the other three fields unchanged, and (for an injective digest) changing
one input changes the field derived from it. -/
theorem cache_key_compute_componentwise (sha256hex : String → String)
    (scenario_yaml prompt tool model : String) :
    (CacheKey.compute sha256hex scenario_yaml prompt tool model).scenario_hash =
        sha256hex scenario_yaml ∧
    (CacheKey.compute sha256hex scenario_yaml prompt tool model).prompt_hash =
        sha256hex prompt ∧
    (CacheKey.compute sha256hex scenario_yaml prompt tool model).tool = tool ∧
    (CacheKey.compute sha256hex scenario_yaml prompt tool model).model = model ∧
    (∀ s2 p2 t2 m2, scenario_yaml = s2 → prompt = p2 → tool = t2 → model = m2 →
      CacheKey.compute sha256hex scenario_yaml prompt tool model =
        CacheKey.compute sha256hex s2 p2 t2 m2) ∧
    (∀ s2,
      (CacheKey.compute sha256hex s2 prompt tool model).prompt_hash =
          (CacheKey.compute sha256hex scenario_yaml prompt tool model).prompt_hash ∧
      (CacheKey.compute sha256hex s2 prompt tool model).tool =
          (CacheKey.compute sha256hex scenario_yaml prompt tool model).tool ∧
      (CacheKey.compute sha256hex s2 prompt tool model).model =
          (CacheKey.compute sha256hex scenario_yaml prompt tool model).model) ∧
    (∀ p2,
      (CacheKey.compute sha256hex scenario_yaml p2 tool model).scenario_hash =
          (CacheKey.compute sha256hex scenario_yaml prompt tool model).scenario_hash ∧
      (CacheKey.compute sha256hex scenario_yaml p2 tool model).tool =
          (CacheKey.compute sha256hex scenario_yaml prompt tool model).tool ∧
      (CacheKey.compute sha256hex scenario_yaml p2 tool model).model =
          (CacheKey.compute sha256hex scenario_yaml prompt tool model).model) ∧
    (∀ t2,
      (CacheKey.compute sha256hex scenario_yaml prompt t2 model).scenario_hash =
          (CacheKey.compute sha256hex scenario_yaml prompt tool model).scenario_hash ∧
      (CacheKey.compute sha256hex scenario_yaml prompt t2 model).prompt_hash =
          (CacheKey.compute sha256hex scenario_yaml prompt tool model).prompt_hash ∧
      (CacheKey.compute sha256hex scenario_yaml prompt t2 model).model =
          (CacheKey.compute sha256hex scenario_yaml prompt tool model).model) ∧
    (∀ m2,
      (CacheKey.compute sha256hex scenario_yaml prompt tool m2).scenario_hash =
          (CacheKey.compute sha256hex scenario_yaml prompt tool model).scenario_hash ∧
      (CacheKey.compute sha256hex scenario_yaml prompt tool m2).prompt_hash =
          (CacheKey.compute sha256hex scenario_yaml prompt tool model).prompt_hash ∧
      (CacheKey.compute sha256hex scenario_yaml prompt tool m2).tool =
          (CacheKey.compute sha256hex scenario_yaml prompt tool model).tool) ∧
    (Function.Injective sha256hex → ∀ s2, scenario_yaml ≠ s2 →
      (CacheKey.compute sha256hex scenario_yaml prompt tool model).scenario_hash ≠
        (CacheKey.compute sha256hex s2 prompt tool model).scenario_hash) ∧
    (Function.Injective sha256hex → ∀ p2, prompt ≠ p2 →
      (CacheKey.compute sha256hex scenario_yaml prompt tool model).prompt_hash ≠
        (CacheKey.compute sha256hex scenario_yaml p2 tool model).prompt_hash) ∧
    (∀ t2, tool ≠ t2 →
      (CacheKey.compute sha256hex scenario_yaml prompt tool model).tool ≠
        (CacheKey.compute sha256hex scenario_yaml prompt t2 model).tool) ∧
    (∀ m2, model ≠ m2 →
      (CacheKey.compute sha256hex scenario_yaml prompt tool model).model ≠
        (CacheKey.compute sha256hex scenario_yaml prompt tool m2).model) := by
  refine ⟨rfl, rfl, rfl, rfl, ?_, ?_, ?_, ?_, ?_, ?_, ?_, ?_, ?_⟩
  · intro s2 p2 t2 m2 hs hp ht hm
    rw [hs, hp, ht, hm]
  · intro s2; exact ⟨rfl, rfl, rfl⟩
  · intro p2; exact ⟨rfl, rfl, rfl⟩
  · intro t2; exact ⟨rfl, rfl, rfl⟩
  · intro m2; exact ⟨rfl, rfl, rfl⟩
  · intro hinj s2 hne hc; exact hne (hinj hc)
  · intro hinj p2 hne hc; exact hne (hinj hc)
  · intro t2 hne hc; exact hne hc
  · intro m2 hne hc; exact hne hc

/-- Witness for C8: with the identity digest, changing the scenario input
changes the scenario hash and leaves the prompt hash unchanged. -/
theorem cache_key_compute_componentwise_witness :
    (CacheKey.compute (fun x => x) "sc-a" "pr" "tool" "model").scenario_hash ≠
      (CacheKey.compute (fun x => x) "sc-b" "pr" "tool" "model").scenario_hash ∧
    (CacheKey.compute (fun x => x) "sc-b" "pr" "tool" "model").prompt_hash =
      (CacheKey.compute (fun x => x) "sc-a" "pr" "tool" "model").prompt_hash := by
  have h := cache_key_compute_componentwise (fun x => x) "sc-a" "pr" "tool" "model"
  exact ⟨h.2.2.2.2.2.2.2.2.2.1 (fun _ _ hab => hab) "sc-b" (by decide),
    (h.2.2.2.2.2.1 "sc-b").1⟩

/-- The if-chain clamp of `compute_composite_score` agrees with
`max 0 (min 1 ·)` on rationals. -/
theorem clamp01_eq (x : ℚ) :
    (if x < 0 then 0 else if x > 1 then 1 else x) = max 0 (min 1 x) := by
  rcases lt_or_le x 0 with h | h
  · rw [if_pos h, min_eq_right (h.le.trans (by norm_num)), max_eq_left h.le]
  · rw [if_neg (not_lt.mpr h)]
    rcases lt_or_le 1 x with h1 | h1
    · rw [if_pos h1, min_eq_left h1.le, max_eq_right (by norm_num)]
    · rw [if_neg (not_lt.mpr h1), min_eq_right h1, max_eq_right h]

/-- C2: with the default weights, the composite score is exactly the
spec formula `clamp(0.55 * judge + 0.35 * gates + 0.10 * efficiency)`
(judge 0 when absent, gates ratio 0 when no gates), and under the stated
input ranges the result lies in `[0, 1]`. -/
theorem composite_score_spec (judge_score : Option ℚ) (gates_passed gates_total : Nat)
    (efficiency : EfficiencyMetrics) :
    compute_composite_score judge_score gates_passed gates_total efficiency none =
      compositeSpecFormula judge_score gates_passed gates_total
        efficiency.first_try_success_rate ∧
    ((∀ s, judge_score = some s → 0 ≤ s ∧ s ≤ 1) → gates_passed ≤ gates_total →
      0 ≤ efficiency.first_try_success_rate → efficiency.first_try_success_rate ≤ 1 →
      0 ≤ compute_composite_score judge_score gates_passed gates_total efficiency none ∧
      compute_composite_score judge_score gates_passed gates_total efficiency none ≤ 1) := by
  have heq : compute_composite_score judge_score gates_passed gates_total efficiency none =
      compositeSpecFormula judge_score gates_passed gates_total
        efficiency.first_try_success_rate := by
    unfold compute_composite_score compositeSpecFormula
    cases judge_score <;> simp [Option.getD] <;> rw [clamp01_eq]
  refine ⟨heq, fun _ _ _ _ => ⟨?_, ?_⟩⟩
  · rw [heq]; unfold compositeSpecFormula
    exact le_max_left _ _
  · rw [heq]; unfold compositeSpecFormula
    exact max_le (by norm_num) (min_le_left _ _)

/-- Witness for C2: a concrete judge score, gate tally and efficiency
record give a composite score within `[0, 1]`. -/
theorem composite_score_spec_witness :
    0 ≤ compute_composite_score (some ((1 : ℚ) / 2)) 1 2
        { zeroEfficiencyMetrics with first_try_success_rate := (1 : ℚ) / 2 } none ∧
      compute_composite_score (some ((1 : ℚ) / 2)) 1 2
        { zeroEfficiencyMetrics with first_try_success_rate := (1 : ℚ) / 2 } none ≤ 1 := by
  have h := (composite_score_spec (some ((1 : ℚ) / 2)) 1 2
      { zeroEfficiencyMetrics with first_try_success_rate := (1 : ℚ) / 2 }).2
    (by intro s hs; cases hs; norm_num) (by norm_num)
    (by norm_num [zeroEfficiencyMetrics]) (by norm_num [zeroEfficiencyMetrics])
  exact h

/-- C7: for every event list the derived metrics satisfy
`unique ≤ total`, `retry = total - unique`, `iteration_ratio =
total / unique` when `unique ≠ 0`, and both `retry` and `iteration_ratio`
vanish for an empty event list (and the ratio whenever `unique = 0`). -/
theorem efficiency_retry_iteration (transcript : String)
    (events : Option (List CommandEvent)) :
    (analyze_with_events transcript events).unique_commands ≤
        (analyze_with_events transcript events).total_commands ∧
    (analyze_with_events transcript events).retry_count =
        (analyze_with_events transcript events).total_commands -
          (analyze_with_events transcript events).unique_commands ∧
    ((analyze_with_events transcript events).unique_commands ≠ 0 →
      (analyze_with_events transcript events).iteration_ratio =
        ((analyze_with_events transcript events).total_commands : ℚ) /
          ((analyze_with_events transcript events).unique_commands : ℚ)) ∧
    ((analyze_with_events transcript events).total_commands = 0 →
      (analyze_with_events transcript events).retry_count = 0 ∧
        (analyze_with_events transcript events).iteration_ratio = 0) ∧
    ((analyze_with_events transcript events).unique_commands = 0 →
      (analyze_with_events transcript events).iteration_ratio = 0) := by
  unfold analyze_with_events
  simp only []
  refine ⟨?_, by trivial, ?_, ?_, ?_⟩
  · calc ((eventsToCommands events).map (fun c => c.1)).dedup.length
        ≤ ((eventsToCommands events).map (fun c => c.1)).length :=
          ((eventsToCommands events).map (fun c => c.1)).dedup_sublist.length_le
      _ = (eventsToCommands events).length := by rw [List.length_map]
  · intro hne
    rw [if_pos]
    simp only [ne_eq, ← List.isEmpty_iff_length_eq_zero] at hne
    simp [hne]
  · intro h0
    have hnil : eventsToCommands events = [] := List.length_eq_zero.mp h0
    simp [hnil]
  · intro h0
    have : ((eventsToCommands events).map (fun c => c.1)).dedup.isEmpty = true := by
      rw [List.isEmpty_iff_length_eq_zero]; exact h0
    simp [this]

/-- Witness for C7: two occurrences of one command give `retry_count 1` and
`iteration_ratio 2`. -/
theorem efficiency_retry_iteration_witness :
    (analyze_with_events "" (some [⟨"add", some 0⟩, ⟨"add", some 0⟩])).iteration_ratio =
      ((analyze_with_events "" (some [⟨"add", some 0⟩, ⟨"add", some 0⟩])).total_commands : ℚ) /
        ((analyze_with_events "" (some [⟨"add", some 0⟩, ⟨"add", some 0⟩])).unique_commands : ℚ) :=
  (efficiency_retry_iteration "" (some [⟨"add", some 0⟩, ⟨"add", some 0⟩])).2.2.1 (by decide)

/-- Negated `any` is `all` of the negation. -/
theorem bool_not_any_eq_all_not {α : Type} (xs : List α) (f : α → Bool) :
    (!xs.any f) = xs.all (fun x => !f x) := by
  induction xs with
  | nil => rfl
  | cons a t ih => by_cases h : f a <;> simp [h, ih]

/-- Taking while the key differs from `s` is taking up to the first index
whose key equals `s`. -/
theorem takeWhile_bne_eq_take_findIdx (l : List (String × Bool)) (s : String) :
    l.takeWhile (fun q => q.1 != s) = l.take (l.findIdx (fun q => q.1 == s)) := by
  induction l with
  | nil => simp
  | cons a t ih =>
    by_cases h : (a.1 == s) = true
    · have hb : (a.1 != s) = false := by simp [bne, h]
      rw [List.takeWhile_cons, List.findIdx_cons, h, hb]
      simp
    · have h' : (a.1 == s) = false := by simpa using h
      have hb : (a.1 != s) = true := by simp [bne, h']
      rw [List.takeWhile_cons, hb, List.findIdx_cons, h']
      simp [ih]

/-- On a list containing a match, `findIdx?` from start `i` finds
`findIdx` shifted by `i`. -/
theorem findIdx?_eq_some_findIdx {α : Type} (l : List α) (f : α → Bool)
    (h : l.any f = true) :
    ∀ i, List.findIdx? f l i = some (l.findIdx f + i) := by
  induction l with
  | nil => simp at h
  | cons a t ih =>
    intro i
    by_cases ha : f a
    · simp [List.findIdx?_cons, List.findIdx_cons, ha]
    · have ha' : f a = false := by simpa using ha
      have ht : t.any f = true := by simpa [ha'] using h
      rw [List.findIdx?_cons, if_neg (by simp [ha']), List.findIdx_cons, ih ht (i + 1), ha']
      simp only [Bool.cond_false]
      exact congrArg some (by omega)

/-- The first conjunct of the `first_try_success_count` filter is always
true, and its prefix is the plain take-up-to-first-occurrence prefix, so
the code's count equals the amended count. -/
theorem firstTrySuccessCount_eq_amended (l : List (String × Bool)) :
    firstTrySuccessCount l = firstTryAmendedCount l := by
  unfold firstTrySuccessCount firstTryAmendedCount
  congr 1
  apply List.filter_congr
  intro p hp
  have hany : l.any (fun q => q.1 == p.1) = true :=
    List.any_eq_true.mpr ⟨p, hp, by simp⟩
  have hfind : (List.findIdx? (fun q => q.1 == p.1) l).getD 0 =
      l.findIdx (fun q => q.1 == p.1) := by
    rw [findIdx?_eq_some_findIdx l _ hany 0]
    simp
  have htake := takeWhile_bne_eq_take_findIdx l p.1
  rw [htake, hfind]
  have hlen : (l.take (l.findIdx (fun q => q.1 == p.1))).length =
      l.findIdx (fun q => q.1 == p.1) := by
    rw [List.length_take]
    exact Nat.min_eq_left (List.findIdx_le_length _)
  rw [hlen, bool_not_any_eq_all_not]
  simp

/-- Counterexample to C1 as stated: a transcript with a single erroring
command.  The claimed formula (first occurrence had no error, no earlier
error) counts nothing, rate `0`; the code counts the event — the error
status of the first occurrence itself is never consulted — and reports
rate `1`. -/
theorem first_try_claim_counterexample :
    (analyze_with_events "" (some [⟨"a", some 1⟩])).first_try_success_rate ≠
        firstTrySpecRate [⟨"a", some 1⟩] ∧
    (analyze_with_events "" (some [⟨"a", some 1⟩])).first_try_success_rate = 1 ∧
    firstTrySpecRate [⟨"a", some 1⟩] = 0 := by
  have h1 : (analyze_with_events "" (some [⟨"a", some 1⟩])).first_try_success_rate = 1 := by
    simp [analyze_with_events, firstTrySuccessCount, eventsToCommands, eventIsError]
  have h2 : firstTrySpecRate [⟨"a", some 1⟩] = 0 := by
    have hc : firstTrySpecCount [("a", (1 : Int) != 0)] = 0 := by decide
    norm_num [firstTrySpecRate, eventsToCommands, eventIsError, hc]
  exact ⟨by rw [h1, h2]; norm_num, h1, h2⟩

/-- C1 (amended): `first_try_success_rate` equals the count of events whose
command's first occurrence in the sequence is preceded by no erroring event
(the first occurrence's own error status is ignored), divided by
`total_commands`, and `0` when there are no commands. -/
theorem first_try_success_rate_amended (transcript : String) (events : List CommandEvent) :
    (analyze_with_events transcript (some events)).first_try_success_rate =
      if events.length = 0 then 0
      else (firstTryAmendedCount (eventsToCommands (some events)) : ℚ) /
        (events.length : ℚ) := by
  have hcount := firstTrySuccessCount_eq_amended (eventsToCommands (some events))
  have hlen : (eventsToCommands (some events)).length = events.length := by
    simp [eventsToCommands]
  unfold analyze_with_events
  simp only []
  rw [hcount, hlen]
  by_cases h0 : events.length = 0
  · simp [h0]
  · rw [if_neg h0, if_pos (Nat.pos_of_ne_zero h0)]

/-- The code's segment walk coincides with direct structural lookup. -/
theorem resolveSegments_eq_structuralLookup (segs : List JsonPathSegment) (j : Json) :
    resolveSegments j segs = structuralLookup j segs := by
  induction segs generalizing j with
  | nil => cases j <;> rfl
  | cons seg rest ih =>
    cases seg with
    | Key key =>
      cases j <;> simp only [resolveSegments, structuralLookup, Json.get]
      case obj fields =>
        cases hf : fields.find? (fun f => f.1 == key) with
        | none => simp [hf]
        | some f => simp [hf, ih]
    | Index index =>
      cases j <;> simp only [resolveSegments, structuralLookup, Json.asArray]
      case arr items =>
        cases hg : items.get? index with
        | none => simp [hg]
        | some item => simp [hg, ih]

/-- C4: JSON-path resolution never errors on a syntactically valid path —
it returns exactly the direct structural lookup through the parsed keys and
indices — and the walk yields `none` (not an error) at a missing key, a
non-object value, a non-array value or an out-of-range index, stopping at
the first `none`. -/
theorem json_path_resolution (json : Json) (path : String) :
    (∀ segs, parse_json_path path = Except.ok segs →
      resolve_json_path json path = Except.ok (structuralLookup json segs)) ∧
    (∀ j key rest, Json.get j key = none →
      resolveSegments j (JsonPathSegment.Key key :: rest) = none) ∧
    (∀ j key next rest, Json.get j key = some next →
      resolveSegments j (JsonPathSegment.Key key :: rest) = resolveSegments next rest) ∧
    (∀ j index rest, Json.asArray j = none →
      resolveSegments j (JsonPathSegment.Index index :: rest) = none) ∧
    (∀ j array index rest, Json.asArray j = some array → array.get? index = none →
      resolveSegments j (JsonPathSegment.Index index :: rest) = none) ∧
    (∀ j array index next rest, Json.asArray j = some array → array.get? index = some next →
      resolveSegments j (JsonPathSegment.Index index :: rest) = resolveSegments next rest) := by
  refine ⟨?_, ?_, ?_, ?_, ?_, ?_⟩
  · intro segs hp
    unfold resolve_json_path
    simp only [hp]
    simp only [resolveSegments_eq_structuralLookup]
    rfl
  · intro j key rest h
    simp [resolveSegments, h]
  · intro j key next rest h
    simp [resolveSegments, h]
  · intro j index rest h
    simp [resolveSegments, h]
  · intro j array index rest h1 h2
    rw [List.get?_eq_getElem?] at h2
    simp [resolveSegments, h1, h2]
  · intro j array index next rest h1 h2
    rw [List.get?_eq_getElem?] at h2
    simp [resolveSegments, h1, h2]

/-- Witness for C4: resolving `$.a[1]` in a two-element array nested under
key `a` yields the second element. -/
theorem json_path_resolution_witness :
    resolve_json_path (Json.obj [("a", Json.arr [Json.num 1, Json.num 2])]) "$.a[1]" =
      Except.ok (some (Json.num 2)) := by
  have h := (json_path_resolution (Json.obj [("a", Json.arr [Json.num 1, Json.num 2])])
      "$.a[1]").1 [JsonPathSegment.Key "a", JsonPathSegment.Index 1] (by decide)
  rw [h]
  decide

/-- Two prefixes of one string are comparable; if the shorter is not a
prefix of the longer, no string starts with both. -/
theorem not_strStartsWith_both (t p q : String) (hlen : p.data.length ≤ q.data.length)
    (hnp : ¬ p.data <+: q.data) :
    strStartsWith t p = true → strStartsWith t q = true → False := by
  intro h1 h2
  unfold strStartsWith at h1 h2
  rw [List.isPrefixOf_iff_prefix] at h1 h2
  exact hnp (List.prefix_of_prefix_length_le h1 h2 hlen)

/-- A successful `len` regex match starts with `len`. -/
theorem matchLenAssertion_startsWith (s : String) (op ds : String)
    (h : matchLenAssertion s = some (op, ds)) : strStartsWith s "len" = true := by
  unfold matchLenAssertion at h
  by_cases hs : strStartsWith s "len" = true
  · exact hs
  · rw [Bool.not_eq_true] at hs
    rw [hs] at h
    simp at h

/-- A successful digit-tail match returns the operator it was given. -/
theorem matchLenDigits_op (op : String) (rest : List Char) (op' ds : String)
    (h : matchLenDigits op rest = some (op', ds)) : op' = op := by
  simp only [matchLenDigits] at h
  split at h
  · simp at h
  · injection h with h1
    injection h1 with hop _
    exact hop.symm

/-- The operator captured by the `len` regex is one of `>=`, `==`, `>`. -/
theorem matchLenAssertion_op (s : String) (op ds : String)
    (h : matchLenAssertion s = some (op, ds)) :
    op = ">=" ∨ op = "==" ∨ op = ">" := by
  unfold matchLenAssertion at h
  split at h
  · simp at h
  · split at h
    · exact .inl (matchLenDigits_op _ _ _ _ h)
    · exact .inr (.inl (matchLenDigits_op _ _ _ _ h))
    · exact .inr (.inr (matchLenDigits_op _ _ _ _ h))
    · simp at h

/-- A string starting with a prefix that `"exists"` does not start with is
not `"exists"`. -/
theorem startsWith_disjoint_exists (p : String) (hp : strStartsWith "exists" p = false)
    {t : String} (h : strStartsWith t p = true) : (t == "exists") = false := by
  cases hb : t == "exists"
  · rfl
  · have ht : t = "exists" := eq_of_beq hb
    rw [ht, hp] at h
    simp at h

/-- If `p` is not a prefix of the no-longer string `q`, a string starting
with `q` does not start with `p`. -/
theorem startsWith_mutual_false (p q : String) (hlen : p.data.length ≤ q.data.length)
    (hnp : ¬ p.data <+: q.data) {t : String} (hq : strStartsWith t q = true) :
    strStartsWith t p = false := by
  cases hb : strStartsWith t p
  · rfl
  · exact (not_strStartsWith_both t p q hlen hnp hb hq).elim

/-- If `p` is not a prefix of the no-shorter string `q`, a string starting
with `p` does not start with `q`. -/
theorem startsWith_false_of_shorter (p q : String) (hlen : p.data.length ≤ q.data.length)
    (hnp : ¬ p.data <+: q.data) {t : String} (hp : strStartsWith t p = true) :
    strStartsWith t q = false := by
  cases hb : strStartsWith t q
  · rfl
  · exact (not_strStartsWith_both t p q hlen hnp hp hb).elim

/-- C5: the assertion evaluator recognizes exactly the four forms `exists`,
`equals <json-or-bare-text>`, `contains <substring>` and
`len (>=|==|>) <digits>`; on a missing value every non-`exists` form yields
`Ok false` (never an error); `equals` compares structurally against the
parsed remainder, falling back to the literal JSON string on parse failure;
`contains` requires a JSON string containing the substring; `len` compares
the element or key count of an array or object and fails scalars with
"value is not an array or object"; and any other assertion text is a syntax
error listing the four forms. -/
theorem assertion_language_spec (pj : String → Except String Json) (assertion : String) :
    (rustTrim assertion = "exists" → ∀ value,
      evaluate_json_assertion pj value assertion =
        .ok ((value.map (fun v => !v.isNull)).getD false, "value exists and is not null")) ∧
    (strStartsWith (rustTrim assertion) "equals " = true →
      evaluate_json_assertion pj none assertion = .ok (false, "path not found")) ∧
    (∀ actual expected, strStartsWith (rustTrim assertion) "equals " = true →
      pj (strDropChars (rustTrim assertion) 7) = .ok expected →
      evaluate_json_assertion pj (some actual) assertion =
        .ok (actual == expected,
          "actual=" ++ actual.render ++ ", expected=" ++ expected.render)) ∧
    (∀ actual e, strStartsWith (rustTrim assertion) "equals " = true →
      pj (strDropChars (rustTrim assertion) 7) = .error e →
      evaluate_json_assertion pj (some actual) assertion =
        .ok (actual == Json.str (strDropChars (rustTrim assertion) 7),
          "actual=" ++ actual.render ++ ", expected=" ++
            (Json.str (strDropChars (rustTrim assertion) 7)).render)) ∧
    (strStartsWith (rustTrim assertion) "contains " = true →
      evaluate_json_assertion pj none assertion = .ok (false, "path not found")) ∧
    (∀ actual, strStartsWith (rustTrim assertion) "contains " = true →
      actual.asStr = none →
      evaluate_json_assertion pj (some actual) assertion =
        .ok (false, "value is not a string")) ∧
    (∀ text, strStartsWith (rustTrim assertion) "contains " = true →
      evaluate_json_assertion pj (some (Json.str text)) assertion =
        .ok (strContains text (strDropChars (rustTrim assertion) 9),
          "substring='" ++ strDropChars (rustTrim assertion) 9 ++ "'")) ∧
    (∀ op ds, matchLenAssertion (rustTrim assertion) = some (op, ds) →
      evaluate_json_assertion pj none assertion = .ok (false, "path not found")) ∧
    (∀ op ds n actual, matchLenAssertion (rustTrim assertion) = some (op, ds) →
      parseUsize ds = some n → actual.collectionLen = none →
      evaluate_json_assertion pj (some actual) assertion =
        .ok (false, "value is not an array or object")) ∧
    (∀ op ds n actual len, matchLenAssertion (rustTrim assertion) = some (op, ds) →
      parseUsize ds = some n → actual.collectionLen = some len →
      evaluate_json_assertion pj (some actual) assertion =
        .ok (lenComparePasses op len n,
          "actual_len=" ++ toString len ++ " " ++ op ++ " " ++ toString n)) ∧
    (∀ value, rustTrim assertion ≠ "exists" →
      strStartsWith (rustTrim assertion) "equals " = false →
      strStartsWith (rustTrim assertion) "contains " = false →
      matchLenAssertion (rustTrim assertion) = none →
      evaluate_json_assertion pj value assertion =
        .error "assertion must be one of: exists, equals <value>, contains <substring>, len >= N, len == N, len > N") := by
  refine ⟨?_, ?_, ?_, ?_, ?_, ?_, ?_, ?_, ?_, ?_, ?_⟩
  · intro heq value
    have hbeq : (rustTrim assertion == "exists") = true := by
      rw [heq]; rfl
    simp only [evaluate_json_assertion, hbeq]
    cases value <;> simp
  · intro h
    have hex := startsWith_disjoint_exists "equals " (by decide) h
    simp [evaluate_json_assertion, hex, h]
  · intro actual expected h hpj
    have hex := startsWith_disjoint_exists "equals " (by decide) h
    simp [evaluate_json_assertion, hex, h, hpj]
  · intro actual e h hpj
    have hex := startsWith_disjoint_exists "equals " (by decide) h
    simp [evaluate_json_assertion, hex, h, hpj]
  · intro h
    have hex := startsWith_disjoint_exists "contains " (by decide) h
    have heqf := startsWith_mutual_false "equals " "contains " (by decide) (by decide) h
    simp [evaluate_json_assertion, hex, heqf, h]
  · intro actual h hstr
    have hex := startsWith_disjoint_exists "contains " (by decide) h
    have heqf := startsWith_mutual_false "equals " "contains " (by decide) (by decide) h
    simp [evaluate_json_assertion, hex, heqf, h, hstr]
  · intro text h
    have hex := startsWith_disjoint_exists "contains " (by decide) h
    have heqf := startsWith_mutual_false "equals " "contains " (by decide) (by decide) h
    simp [evaluate_json_assertion, hex, heqf, h, Json.asStr]
  · intro op ds hml
    have hlenp := matchLenAssertion_startsWith _ _ _ hml
    have hex := startsWith_disjoint_exists "len" (by decide) hlenp
    have heqf := startsWith_false_of_shorter "len" "equals " (by decide) (by decide) hlenp
    have hcontf := startsWith_false_of_shorter "len" "contains " (by decide) (by decide) hlenp
    simp [evaluate_json_assertion, hex, heqf, hcontf, hml]
  · intro op ds n actual hml hn hscalar
    have hlenp := matchLenAssertion_startsWith _ _ _ hml
    have hex := startsWith_disjoint_exists "len" (by decide) hlenp
    have heqf := startsWith_false_of_shorter "len" "equals " (by decide) (by decide) hlenp
    have hcontf := startsWith_false_of_shorter "len" "contains " (by decide) (by decide) hlenp
    simp [evaluate_json_assertion, hex, heqf, hcontf, hml, hn, hscalar]
  · intro op ds n actual len hml hn hcoll
    have hlenp := matchLenAssertion_startsWith _ _ _ hml
    have hex := startsWith_disjoint_exists "len" (by decide) hlenp
    have heqf := startsWith_false_of_shorter "len" "equals " (by decide) (by decide) hlenp
    have hcontf := startsWith_false_of_shorter "len" "contains " (by decide) (by decide) hlenp
    rcases matchLenAssertion_op _ _ _ hml with hop | hop | hop <;> subst hop <;>
      simp [evaluate_json_assertion, lenComparePasses, hex, heqf, hcontf, hml, hn, hcoll]
  · intro value hne heqf hcontf hml
    have hex : (rustTrim assertion == "exists") = false := by
      cases hb : rustTrim assertion == "exists"
      · rfl
      · exact absurd (eq_of_beq hb) hne
    simp [evaluate_json_assertion, hex, heqf, hcontf, hml]

/-- Witness for C5: asserting `len > 0` against the scalar `3` fails with
"value is not an array or object". -/
theorem assertion_language_spec_witness :
    evaluate_json_assertion (fun _ => Except.error "no parse") (some (Json.num 3)) "len > 0" =
      Except.ok (false, "value is not an array or object") :=
  (assertion_language_spec (fun _ => Except.error "no parse") "len > 0").2.2.2.2.2.2.2.2.1
    ">" "0" 0 (Json.num 3) (by decide) (by decide) (by decide)

/-- C6: the script gate fails with "Script runner not available" when no
runner is supplied; otherwise the runner is invoked with the fixed
30-second timeout, a timeout fails the gate, a trimmed stdout that parses
as `{passed, message?}` is authoritative (the gate description backs an
absent message), and any other stdout makes `passed` equal to
`exit_code == 0` with a message synthesized from command, pass/fail word,
exit code and description. -/
theorem script_gate_contract (pj : String → Except String Json)
    (command description : String) :
    eval_script pj command description none =
      ⟨"Script", false, "Script runner not available for script gate evaluation"⟩ ∧
    (∀ runner e, runner command 30 = .error e →
      eval_script pj command description (some runner) =
        ⟨"Script", false, "Failed to execute script '" ++ command ++ "': " ++ e⟩) ∧
    (∀ runner result, runner command 30 = .ok result → result.timed_out = true →
      eval_script pj command description (some runner) =
        ⟨"Script", false, "Script '" ++ command ++ "' timed out after 30 seconds"⟩) ∧
    (∀ runner result parsed, runner command 30 = .ok result → result.timed_out = false →
      (pj (rustTrim result.stdout)).toOption.bind parseScriptGateOutput = some parsed →
      eval_script pj command description (some runner) =
        ⟨"Script", parsed.passed, parsed.message.getD description⟩) ∧
    (∀ runner result, runner command 30 = .ok result → result.timed_out = false →
      (pj (rustTrim result.stdout)).toOption.bind parseScriptGateOutput = none →
      eval_script pj command description (some runner) =
        ⟨"Script", result.exit_code == 0,
          "Script '" ++ command ++ "' " ++
            (if result.exit_code == 0 then "passed" else "failed") ++
            " (exit code: " ++ toString result.exit_code ++ ", description: " ++
            description ++ ")"⟩) := by
  refine ⟨rfl, ?_, ?_, ?_, ?_⟩
  · intro runner e h
    simp [eval_script, h]
  · intro runner result h ht
    simp [eval_script, h, ht]
  · intro runner result parsed h ht hp
    simp [eval_script, h, ht, hp]
  · intro runner result h ht hp
    simp [eval_script, h, ht, hp]

/-- Witness for C6: a runner reporting exit code 1 with unparsable stdout
fails the gate with the synthesized exit-code message. -/
theorem script_gate_contract_witness :
    eval_script (fun _ => Except.error "no parse") "false" "should fail"
        (some (fun _ _ => Except.ok ⟨1, "", "", false⟩)) =
      ⟨"Script", false, "Script 'false' failed (exit code: 1, description: should fail)"⟩ := by
  have h := (script_gate_contract (fun _ => Except.error "no parse") "false"
      "should fail").2.2.2.2 (fun _ _ => Except.ok ⟨1, "", "", false⟩) ⟨1, "", "", false⟩
    rfl rfl (by decide)
  rw [h]
  decide

/-- Unrolling of the `evaluate_gates` loop from an arbitrary accumulator:
the collected results are the per-gate evaluations in order, and the pass
counter adds the number of passed results. -/
theorem evaluate_gates_foldl (gates : List Gate) (ctx : EvaluationContext) (w : World)
    (acc : List GateResult × Nat) :
    gates.foldl (fun acc gate =>
      let result := gate.evaluate ctx w
      (acc.1 ++ [result], if result.passed then acc.2 + 1 else acc.2)) acc =
      (acc.1 ++ gates.map (fun g => g.evaluate ctx w),
        acc.2 + ((gates.map (fun g => g.evaluate ctx w)).filter (fun r => r.passed)).length) := by
  induction gates generalizing acc with
  | nil => simp
  | cons g gs ih =>
    simp only [List.foldl_cons, List.map_cons, List.filter_cons]
    rw [ih]
    cases h : (g.evaluate ctx w).passed <;> simp [h] <;> omega

/-- C3: evaluating the gate list produces exactly one result per gate, in
declaration order (the result list is the pointwise evaluation map);
`gates_passed` counts the results whose `passed` field is true; and every
failure mode the claim enumerates — regex compile error, JSON parse error,
invalid JSON-path syntax, invalid assertion syntax, missing file, spawn
failure, script timeout, missing script runner, and an unreadable
transcript — yields a `GateResult` with `passed = false` and a descriptive
message instead of raising. -/
theorem evaluate_gates_spec (gates : List Gate) (ctx : EvaluationContext) (w : World) :
    (evaluate_gates gates ctx w).1 = gates.map (fun g => g.evaluate ctx w) ∧
    (evaluate_gates gates ctx w).1.length = gates.length ∧
    (evaluate_gates gates ctx w).2 =
      ((evaluate_gates gates ctx w).1.filter (fun r => r.passed)).length ∧
    (∀ command pattern e, w.regexNew pattern = .error e →
      (Gate.CommandOutputMatches command pattern).evaluate ctx w =
        ⟨"CommandOutputMatches", false,
          "Invalid regex pattern '" ++ pattern ++ "': " ++ e⟩) ∧
    (∀ command e, w.runShell ctx.env_root command = .error e →
      ((Gate.CommandSucceeds command).evaluate ctx w).passed = false) ∧
    (∀ command path assertion output e, w.runShell ctx.env_root command = .ok output →
      output.status_success = true → w.parseJson output.stdout = .error e →
      (Gate.CommandJsonPath command path assertion).evaluate ctx w =
        ⟨"CommandJsonPath", false, "Command output is not valid JSON: " ++ e⟩) ∧
    (∀ path substring e, w.readFile (joinPath ctx.env_root path) = .error e →
      (Gate.FileContains path substring).evaluate ctx w =
        ⟨"FileContains", false,
          "Failed to read file '" ++ joinPath ctx.env_root path ++ "': " ++ e⟩) ∧
    (∀ command description, ctx.script_runner = none →
      (Gate.Script command description).evaluate ctx w =
        ⟨"Script", false, "Script runner not available for script gate evaluation"⟩) ∧
    (∀ e, w.readFile (joinPath ctx.env_root "transcript.raw.txt") = .error e →
      Gate.NoTranscriptErrors.evaluate ctx w =
        ⟨"NoTranscriptErrors", false,
          "Evaluation error: Failed to read transcript file (missing or unreadable): " ++ e⟩) ∧
    (∀ command path assertion output json e, w.runShell ctx.env_root command = .ok output →
      output.status_success = true → w.parseJson output.stdout = .ok json →
      resolve_json_path json path = .error e →
      (Gate.CommandJsonPath command path assertion).evaluate ctx w =
        ⟨"CommandJsonPath", false, "Invalid JSON path '" ++ path ++ "': " ++ e⟩) ∧
    (∀ command path assertion output json value e,
      w.runShell ctx.env_root command = .ok output → output.status_success = true →
      w.parseJson output.stdout = .ok json → resolve_json_path json path = .ok value →
      evaluate_json_assertion w.parseJson value assertion = .error e →
      (Gate.CommandJsonPath command path assertion).evaluate ctx w =
        ⟨"CommandJsonPath", false, "Invalid assertion '" ++ assertion ++ "': " ++ e⟩) ∧
    (∀ command description runner result, ctx.script_runner = some runner →
      runner command 30 = .ok result → result.timed_out = true →
      (Gate.Script command description).evaluate ctx w =
        ⟨"Script", false, "Script '" ++ command ++ "' timed out after 30 seconds"⟩) ∧
    (∀ command e, w.runShell ctx.env_root command = .error e → rustTrim command ≠ "" →
      (Gate.CommandSucceeds command).evaluate ctx w =
        ⟨"CommandSucceeds", false,
          "Failed to execute command '" ++ command ++ "': " ++ e⟩) ∧
    (∀ command substring e, w.runShell ctx.env_root command = .error e →
      (Gate.CommandOutputContains command substring).evaluate ctx w =
        ⟨"CommandOutputContains", false,
          "Failed to execute command '" ++ command ++ "': " ++ e⟩) := by
  have hfold := evaluate_gates_foldl gates ctx w ([], 0)
  refine ⟨?_, ?_, ?_, ?_, ?_, ?_, ?_, ?_, ?_, ?_, ?_, ?_, ?_, ?_⟩
  · unfold evaluate_gates
    rw [hfold]
    simp
  · unfold evaluate_gates
    rw [hfold]
    simp
  · unfold evaluate_gates
    rw [hfold]
    simp
  · intro command pattern e h
    simp [Gate.evaluate, eval_command_output_matches, h]
  · intro command e h
    by_cases hc : (rustTrim command == "") = true
    · simp [Gate.evaluate, eval_command_succeeds, hc]
    · simp only [Bool.not_eq_true] at hc
      simp [Gate.evaluate, eval_command_succeeds, hc, h]
  · intro command path assertion output e hrun hsucc hjson
    simp [Gate.evaluate, eval_command_json_path, hrun, hsucc, hjson]
  · intro path substring e h
    simp [Gate.evaluate, eval_file_contains, h]
  · intro command description h
    simp [Gate.evaluate, eval_script, h]
  · intro e h
    simp [Gate.evaluate, eval_no_transcript_errors, no_transcript_errors, h,
      ← String.append_assoc]
  · intro command path assertion output json e hrun hsucc hjson hpath
    simp [Gate.evaluate, eval_command_json_path, hrun, hsucc, hjson, hpath]
  · intro command path assertion output json value e hrun hsucc hjson hpath hassert
    simp [Gate.evaluate, eval_command_json_path, hrun, hsucc, hjson, hpath, hassert]
  · intro command description runner result hsr hok ht
    simp [Gate.evaluate, eval_script, hsr, hok, ht]
  · intro command e h hblank
    have hb : (rustTrim command == "") = false := by
      cases hbe : rustTrim command == ""
      · rfl
      · exact absurd (eq_of_beq hbe) hblank
    simp [Gate.evaluate, eval_command_succeeds, hb, h]
  · intro command substring e h
    simp [Gate.evaluate, eval_command_output_contains, h]

/-- Witness for C3: a two-gate list in a world with no collaborators yields
two results in order, no passes, and a failing script gate. -/
theorem evaluate_gates_spec_witness :
    (evaluate_gates [Gate.FileExists "out.txt", Gate.Script "true" "desc"] ctx0
        trivialWorld).1.length = 2 ∧
    (Gate.Script "true" "desc").evaluate ctx0 trivialWorld =
      ⟨"Script", false, "Script runner not available for script gate evaluation"⟩ := by
  have h := evaluate_gates_spec [Gate.FileExists "out.txt", Gate.Script "true" "desc"]
    ctx0 trivialWorld
  exact ⟨by rw [h.2.1]; rfl, h.2.2.2.2.2.2.2.1 "true" "desc" rfl⟩

/-- C10: a non-blank caller-supplied command pattern is used verbatim (no
fallback to the synthesized pattern); when it fails to compile, command
extraction silently returns the empty event list, so for any transcript
content every efficiency metric is zero and the `NoTranscriptErrors` gate
passes. -/
theorem invalid_pattern_silent_empty (w : World)
    (pattern transcript target_binary env_root e : String)
    (hblank : rustTrim pattern ≠ "") (hregex : w.regexNew pattern = .error e) :
    resolve_command_pattern target_binary (some pattern) = pattern ∧
    extract_commands_with_pattern w transcript pattern = [] ∧
    analyze_with_exit_codes_for_target w transcript target_binary (some pattern) =
      zeroEfficiencyMetrics ∧
    (∀ content, w.readFile (joinPath env_root "transcript.raw.txt") = .ok content →
      no_transcript_errors w env_root target_binary (some pattern) = .ok true ∧
      Gate.NoTranscriptErrors.evaluate ⟨env_root, target_binary, some pattern, none⟩ w =
        ⟨"NoTranscriptErrors", true, "Transcript has no command errors: true"⟩) := by
  have hb : (rustTrim pattern != "") = true := by
    cases hbe : rustTrim pattern == ""
    · simp [bne, hbe]
    · exact absurd (eq_of_beq hbe) hblank
  have hres : resolve_command_pattern target_binary (some pattern) = pattern := by
    simp [resolve_command_pattern, hb]
  have hext : ∀ t : String, extract_commands_with_pattern w t pattern = [] := by
    intro t
    simp [extract_commands_with_pattern, hregex]
  have hzero : ∀ t : String,
      analyze_with_exit_codes_for_target w t target_binary (some pattern) =
        zeroEfficiencyMetrics := by
    intro t
    unfold analyze_with_exit_codes_for_target
    simp only [hres, hext]
    rfl
  refine ⟨hres, hext transcript, hzero transcript, ?_⟩
  intro content hread
  have hnte : no_transcript_errors w env_root target_binary (some pattern) = .ok true := by
    unfold no_transcript_errors
    rw [hread]
    simp [hzero]
    rfl
  refine ⟨hnte, ?_⟩
  show eval_no_transcript_errors w env_root target_binary (some pattern) = _
  unfold eval_no_transcript_errors
  rw [hnte]
  rfl

/-- Witness for C10: with an uncompilable override pattern and a transcript
full of error text, the transcript is reported error-free. -/
theorem invalid_pattern_silent_empty_witness :
    no_transcript_errors worldInvalidRegex "/env" "tool" (some "[unclosed") =
      .ok true := by
  have h := invalid_pattern_silent_empty worldInvalidRegex "[unclosed"
    "tool run one\nerror: it failed\ntool run two" "tool" "/env" "regex parse error"
    (by decide) rfl
  exact (h.2.2.2 "tool run one\nerror: it failed\ntool run two" rfl).1

end LlmToolTest
